import Mathlib

/-!
Shallow embedding of the speedtest core:

* `PromiseEngine` (the cancelable loop driver), from the first unnamed
  source file: a state machine over the engine's private fields
  (`#running`, `#currentPromise`, the `_cancel` flags, the set of not yet
  settled operations) driven by the public calls `play`/`pause`/`stop`
  and by the environment settling an in-flight operation, which runs the
  `.then` continuation installed by `#next`.
* `LoadNetworkEngine` constructor validation and engine creation.
* `ReachabilityEngine`: the finished-latch and the race between the
  request settlement and the timeout timer.
* `nodeFetch` / `NodePerformanceResourceTiming` from
  `src/utils/nodeRequest.js`: timings capture modelled over an abstract
  monotone clock (`performance.now()` readings), latency and
  transferSize derivation.
-/

namespace Speedtest

/-! ## PromiseEngine -/

/-- Observable events of one engine: an operation (identified by the
promise handle created in `#next`) starts, or it settles. -/
inductive PEEvent where
  | start (id : Nat)
  | settle (id : Nat)
deriving DecidableEq, Repr

/-- The private state of a `PromiseEngine`:
`running` is `#running`; `current` is the id of `#currentPromise`
(`none` only before the first `#next`); `canceled` is the set of handles
whose `_cancel` flag has been set by `#cancelCurrent`; `pending` is the
set of operations started but not yet settled; `nextId` supplies fresh
handle ids. -/
structure PEState where
  running : Bool
  current : Option Nat
  canceled : List Nat
  pending : List Nat
  nextId : Nat
deriving DecidableEq, Repr

/-- `#next()`: calls `promiseFn()` (a fresh operation starts) and stores
the resulting handle in `#currentPromise`. Emits the `start` event. -/
def PEState.next (s : PEState) : PEState × List PEEvent :=
  ({ s with current := some s.nextId,
            pending := s.nextId :: s.pending,
            nextId := s.nextId + 1 },
   [.start s.nextId])

/-- `#cancelCurrent()`: sets `_cancel` on the current handle, if any. -/
def PEState.cancelCurrent (s : PEState) : PEState :=
  match s.current with
  | none => s
  | some id => { s with canceled := id :: s.canceled }

/-- `pause()` (and its synonym `stop()`): cancel the current handle and
set `#running` to `false`. -/
def PEState.pause (s : PEState) : PEState :=
  { s.cancelCurrent with running := false }

/-- `play()`: if not running, set `#running` and schedule the first
iteration via `#next`; a no-op while running. -/
def PEState.play (s : PEState) : PEState × List PEEvent :=
  if s.running then (s, []) else ({ s with running := true }.next)

/-- The environment settles the in-flight operation `id`; this runs the
`.then` continuation captured in `#next`, which re-arms via `#next`
unless that very handle's `_cancel` flag is set. A settle of an id that
is not pending cannot happen and is a no-op. -/
def PEState.settleOp (s : PEState) (id : Nat) : PEState × List PEEvent :=
  if id ∈ s.pending then
    let s1 := { s with pending := s.pending.erase id }
    if id ∈ s.canceled then (s1, [.settle id])
    else
      let (s2, ev) := s1.next
      (s2, .settle id :: ev)
  else (s, [])

/-- External stimuli: the public calls and environment settlements. -/
inductive PEAction where
  | play
  | pause
  | settleOp (id : Nat)
deriving DecidableEq, Repr

def PEState.step (s : PEState) : PEAction → PEState × List PEEvent
  | .play => s.play
  | .pause => (s.pause, [])
  | .settleOp id => s.settleOp id

/-- Run a list of actions, accumulating the emitted trace. -/
def PEState.run (s : PEState) : List PEAction → PEState × List PEEvent
  | [] => (s, [])
  | a :: rest =>
      let (s1, tr1) := s.step a
      let (s2, tr2) := s1.run rest
      (s2, tr1 ++ tr2)

/-- The state the constructor starts from, before it calls `play()`. -/
def PEState.init : PEState :=
  { running := false, current := none, canceled := [], pending := [], nextId := 0 }

/-- `new PromiseEngine(promiseFn)` (with a non-null `promiseFn`):
initialises the fields and immediately calls `this.play()`. -/
def PromiseEngine.construct : PEState × List PEEvent :=
  PEState.init.play

@[simp] theorem PEState.run_nil (s : PEState) : s.run [] = (s, []) := rfl

theorem PEState.run_cons (s : PEState) (a : PEAction) (rest : List PEAction) :
    s.run (a :: rest) =
      ((s.step a).1.run rest |>.1,
       (s.step a).2 ++ ((s.step a).1.run rest).2) := rfl

/-! ### Non-overlap of the emitted trace

`overlapFree tr k = true` scans the trace keeping the number `k` of
operations currently in flight; a `start` while one is already in
flight falsifies it.  `overlapFree tr 0` says every start happens at or
after the settlement of the previously started operation. -/

def flightAfter : List PEEvent → Nat → Nat
  | [], k => k
  | .start _ :: r, k => flightAfter r (k + 1)
  | .settle _ :: r, k => flightAfter r (k - 1)

def overlapFree : List PEEvent → Nat → Bool
  | [], _ => true
  | .start _ :: r, k => decide (k = 0) && overlapFree r 1
  | .settle _ :: r, k => overlapFree r (k - 1)

theorem flightAfter_append (a b : List PEEvent) (k : Nat) :
    flightAfter (a ++ b) k = flightAfter b (flightAfter a k) := by
  induction a generalizing k with
  | nil => rfl
  | cons e r ih => cases e <;> simp [flightAfter, ih]

theorem overlapFree_append (a b : List PEEvent) (k : Nat) :
    overlapFree (a ++ b) k = (overlapFree a k && overlapFree b (flightAfter a k)) := by
  induction a generalizing k with
  | nil => simp [overlapFree, flightAfter]
  | cons e r ih =>
      cases e with
      | start i =>
          by_cases hk : k = 0 <;>
            simp [overlapFree, flightAfter, ih, hk]
      | settle i => simp [overlapFree, flightAfter, ih]

/-- `stop()` just calls `this.pause()`. -/
def PEState.stop (s : PEState) : PEState :=
  s.pause

theorem construct_eq :
    PromiseEngine.construct =
      ({ running := true, current := some 0, canceled := [], pending := [0], nextId := 1 },
       [.start 0]) := rfl

/-- In a freely-running loop (no `pause`/`stop` among the stimuli) the
state keeps `running = true`, no handle is ever canceled, at most one
operation is pending, and the emitted trace is overlap-free starting
from the current number of in-flight operations, which it tracks
exactly. -/
theorem run_overlapFree (acts : List PEAction) (hp : PEAction.pause ∉ acts) :
    ∀ s : PEState, s.running = true → s.canceled = [] → s.pending.length ≤ 1 →
      overlapFree (s.run acts).2 s.pending.length = true
      ∧ flightAfter (s.run acts).2 s.pending.length = (s.run acts).1.pending.length
      ∧ (s.run acts).1.running = true
      ∧ (s.run acts).1.canceled = []
      ∧ (s.run acts).1.pending.length ≤ 1 := by
  induction acts with
  | nil =>
      intro s hr hc hl
      simp [PEState.run, overlapFree, flightAfter, hr, hc, hl]
  | cons a rest ih =>
      intro s hr hc hl
      have hprest : PEAction.pause ∉ rest := fun h => hp (List.mem_cons_of_mem a h)
      cases a with
      | pause => exact absurd (List.mem_cons_self _ _) hp
      | play =>
          have hstep : s.step PEAction.play = (s, []) := by
            simp [PEState.step, PEState.play, hr]
          rw [PEState.run_cons, hstep]
          simpa using ih hprest s hr hc hl
      | settleOp id =>
          by_cases hid : id ∈ s.pending
          · have hcanc : id ∉ s.canceled := by simp [hc]
            have hstep : s.step (PEAction.settleOp id) =
                ({ s with current := some s.nextId,
                          pending := s.nextId :: s.pending.erase id,
                          nextId := s.nextId + 1 },
                 [.settle id, .start s.nextId]) := by
              simp [PEState.step, PEState.settleOp, hid, hcanc, PEState.next]
            have hlen : s.pending.length = 1 := by
              have : 0 < s.pending.length :=
                List.length_pos.mpr (List.ne_nil_of_mem hid)
              omega
            have herase : (s.pending.erase id).length = 0 := by
              rw [List.length_erase_of_mem hid, hlen]
            set s2 : PEState :=
              { s with current := some s.nextId,
                       pending := s.nextId :: s.pending.erase id,
                       nextId := s.nextId + 1 } with hs2
            have hlen2 : s2.pending.length = 1 := by
              simp [hs2, herase]
            obtain ⟨h1, h2, h3, h4, h5⟩ :=
              ih hprest s2 (by simp [hs2, hr]) (by simp [hs2, hc]) (by omega)
            rw [PEState.run_cons, hstep]
            refine ⟨?_, ?_, h3, h4, h5⟩
            · rw [overlapFree_append, hlen]
              simp only [overlapFree, flightAfter]
              rw [hlen2] at h1
              simpa using h1
            · rw [flightAfter_append, hlen]
              simp only [flightAfter]
              rw [hlen2] at h2
              simpa using h2
          · have hstep : s.step (PEAction.settleOp id) = (s, []) := by
              simp [PEState.step, PEState.settleOp, hid]
            rw [PEState.run_cons, hstep]
            simpa using ih hprest s hr hc hl

/-- Structural invariant of every reachable engine state: a pending
handle whose `_cancel` flag is clear is exactly the current one; when
idle, every pending handle is canceled; ids are below the fresh
counter; pending handles are distinct. -/
def Inv (s : PEState) : Prop :=
  (∀ id ∈ s.pending, id ∉ s.canceled → s.current = some id)
  ∧ (s.running = false → ∀ id ∈ s.pending, id ∈ s.canceled)
  ∧ (∀ id ∈ s.pending, id < s.nextId)
  ∧ (∀ id ∈ s.canceled, id < s.nextId)
  ∧ (∀ id, s.current = some id → id < s.nextId)
  ∧ s.pending.Nodup

theorem Inv_construct : Inv PromiseEngine.construct.1 := by
  rw [construct_eq]
  refine ⟨?_, ?_, ?_, ?_, ?_, ?_⟩
  · intro id hid _
    simp only [List.mem_singleton] at hid
    simp [hid]
  · intro h; simp at h
  · intro id hid
    dsimp only at hid ⊢
    simp only [List.mem_singleton] at hid
    omega
  · intro id hid; simp at hid
  · intro id hid
    dsimp only at hid ⊢
    simp only [Option.some.injEq] at hid
    omega
  · simp

theorem pause_eq_none (s : PEState) (hc : s.current = none) :
    s.pause = { s with running := false } := by
  simp [PEState.pause, PEState.cancelCurrent, hc]

theorem pause_eq_some (s : PEState) (cur : Nat) (hc : s.current = some cur) :
    s.pause = { s with running := false, canceled := cur :: s.canceled } := by
  simp [PEState.pause, PEState.cancelCurrent, hc]

theorem Inv_step (s : PEState) (a : PEAction) (h : Inv s) : Inv (s.step a).1 := by
  obtain ⟨h1, h2, h3, h4, h5, h6⟩ := h
  cases a with
  | play =>
      by_cases hr : s.running = true
      · simp [PEState.step, PEState.play, hr]
        exact ⟨h1, h2, h3, h4, h5, h6⟩
      · have hr' : s.running = false := by
          cases hrun : s.running
          · rfl
          · exact absurd hrun hr
        have hall : ∀ id ∈ s.pending, id ∈ s.canceled := h2 hr'
        simp only [PEState.step, PEState.play, hr', if_neg, Bool.false_eq_true,
          not_false_eq_true, PEState.next]
        refine ⟨?_, ?_, ?_, ?_, ?_, ?_⟩
        · intro id hid hnc
          dsimp only at hid hnc ⊢
          simp only [List.mem_cons] at hid
          rcases hid with rfl | hid
          · rfl
          · exact absurd (hall id hid) hnc
        · intro hfalse; simp at hfalse
        · intro id hid
          dsimp only at hid ⊢
          simp only [List.mem_cons] at hid
          rcases hid with rfl | hid
          · omega
          · have := h3 id hid; omega
        · intro id hid
          dsimp only at hid ⊢
          have := h4 id hid; omega
        · intro id hid
          dsimp only at hid ⊢
          simp only [Option.some.injEq] at hid
          omega
        · dsimp only
          refine List.nodup_cons.mpr ⟨?_, h6⟩
          intro hmem
          have := h3 _ hmem
          omega
  | pause =>
      show Inv s.pause
      cases hc : s.current with
      | none =>
          rw [pause_eq_none s hc]
          refine ⟨?_, ?_, h3, h4, ?_, h6⟩
          · intro id hid hnc
            exact absurd (h1 id hid hnc) (by simp [hc])
          · intro _ id hid
            by_contra hnc
            exact absurd (h1 id hid hnc) (by simp [hc])
          · intro id hid
            dsimp only at hid
            exact h5 id hid
      | some cur =>
          rw [pause_eq_some s cur hc]
          refine ⟨?_, ?_, h3, ?_, ?_, h6⟩
          · intro id hid hnc
            dsimp only at hid hnc ⊢
            simp only [List.mem_cons] at hnc
            push_neg at hnc
            exact hc ▸ h1 id hid hnc.2
          · intro _ id hid
            dsimp only at hid ⊢
            by_cases hidc : id ∈ s.canceled
            · exact List.mem_cons_of_mem _ hidc
            · have := h1 id hid hidc
              rw [hc] at this
              simp only [Option.some.injEq] at this
              simp [this]
          · intro id hid
            dsimp only at hid ⊢
            simp only [List.mem_cons] at hid
            rcases hid with rfl | hid
            · exact h5 id hc
            · exact h4 id hid
          · intro id hid
            dsimp only at hid ⊢
            rw [hc] at hid
            simp only [Option.some.injEq] at hid
            exact hid ▸ h5 cur hc
  | settleOp id =>
      by_cases hid : id ∈ s.pending
      · by_cases hcanc : id ∈ s.canceled
        · simp only [PEState.step, PEState.settleOp, hid, if_pos, hcanc]
          refine ⟨?_, ?_, ?_, h4, h5, h6.erase id⟩
          · intro j hj hnc
            exact h1 j (List.mem_of_mem_erase hj) hnc
          · intro hf j hj
            exact h2 hf j (List.mem_of_mem_erase hj)
          · intro j hj
            exact h3 j (List.mem_of_mem_erase hj)
        · simp only [PEState.step, PEState.settleOp, hid, if_pos, hcanc,
            if_neg, not_false_eq_true, PEState.next]
          have hrun : s.running = true := by
            by_contra hrt
            have hr' : s.running = false := by
              cases hr0 : s.running
              · rfl
              · exact absurd hr0 hrt
            exact hcanc (h2 hr' id hid)
          refine ⟨?_, ?_, ?_, ?_, ?_, ?_⟩
          · intro j hj hnc
            dsimp only at hj hnc ⊢
            simp only [List.mem_cons] at hj
            rcases hj with rfl | hj
            · rfl
            · have hj' := List.mem_of_mem_erase hj
              have hjc := h1 j hj' hnc
              have hji := h1 id hid hcanc
              rw [hji] at hjc
              simp only [Option.some.injEq] at hjc
              exact absurd hj (by
                rw [(List.Nodup.mem_erase_iff h6)]
                simp [hjc])
          · intro hf
            dsimp only at hf
            rw [hrun] at hf; simp at hf
          · intro j hj
            dsimp only at hj ⊢
            simp only [List.mem_cons] at hj
            rcases hj with rfl | hj
            · omega
            · have := h3 j (List.mem_of_mem_erase hj); omega
          · intro j hj
            dsimp only at hj ⊢
            have := h4 j hj; omega
          · intro j hj
            dsimp only at hj ⊢
            simp only [Option.some.injEq] at hj
            omega
          · dsimp only
            refine List.nodup_cons.mpr ⟨?_, h6.erase id⟩
            intro hmem
            have := h3 _ (List.mem_of_mem_erase hmem)
            omega
      · simpa [PEState.step, PEState.settleOp, hid] using
          ⟨h1, h2, h3, h4, h5, h6⟩

theorem Inv_run (s : PEState) (acts : List PEAction) (h : Inv s) :
    Inv (s.run acts).1 := by
  induction acts generalizing s with
  | nil => simpa [PEState.run]
  | cons a rest ih =>
      rw [PEState.run_cons]
      exact ih _ (Inv_step s a h)

/-- A dead engine: idle, and every still-pending handle carries the
`_cancel` flag. -/
def Dead (s : PEState) : Prop :=
  s.running = false ∧ ∀ id ∈ s.pending, id ∈ s.canceled

theorem Dead_pause (s : PEState) (h : Inv s) : Dead s.pause := by
  obtain ⟨h1, _, _, _, _, _⟩ := h
  cases hc : s.current with
  | none =>
      rw [pause_eq_none s hc]
      refine ⟨rfl, ?_⟩
      intro id hid
      dsimp only at hid ⊢
      by_contra hnc
      exact absurd (h1 id hid hnc) (by simp [hc])
  | some cur =>
      rw [pause_eq_some s cur hc]
      refine ⟨rfl, ?_⟩
      intro id hid
      dsimp only at hid ⊢
      simp only [List.mem_cons]
      by_cases hidc : id ∈ s.canceled
      · exact Or.inr hidc
      · have := h1 id hid hidc
        rw [hc] at this
        simp only [Option.some.injEq] at this
        exact Or.inl this.symm

/-- From a dead state, as long as `play()` is not called again, no event
emitted is a `start`: a settling canceled handle never re-arms the
loop, and the state stays dead. -/
theorem Dead_run (acts : List PEAction) (hp : PEAction.play ∉ acts) :
    ∀ s : PEState, Dead s →
      Dead (s.run acts).1 ∧ ∀ i, PEEvent.start i ∉ (s.run acts).2 := by
  induction acts with
  | nil =>
      intro s hd
      exact ⟨by simpa [PEState.run], by simp [PEState.run]⟩
  | cons a rest ih =>
      intro s hd
      have hprest : PEAction.play ∉ rest := fun h => hp (List.mem_cons_of_mem a h)
      obtain ⟨hdr, hdc⟩ := hd
      cases a with
      | play => exact absurd (List.mem_cons_self _ _) hp
      | pause =>
          have hstep : s.step PEAction.pause = (s.pause, []) := rfl
          have hd' : Dead s.pause := by
            cases hc : s.current with
            | none =>
                rw [pause_eq_none s hc]
                exact ⟨rfl, fun id hid => hdc id hid⟩
            | some cur =>
                rw [pause_eq_some s cur hc]
                exact ⟨rfl, fun id hid => List.mem_cons_of_mem _ (hdc id hid)⟩
          rw [PEState.run_cons, hstep]
          obtain ⟨hdd, hns⟩ := ih hprest _ hd'
          exact ⟨hdd, by simpa using hns⟩
      | settleOp id =>
          by_cases hid : id ∈ s.pending
          · have hcanc : id ∈ s.canceled := hdc id hid
            have hstep : s.step (PEAction.settleOp id) =
                ({ s with pending := s.pending.erase id }, [.settle id]) := by
              simp [PEState.step, PEState.settleOp, hid, hcanc]
            have hd' : Dead { s with pending := s.pending.erase id } := by
              refine ⟨hdr, ?_⟩
              intro j hj
              exact hdc j (List.mem_of_mem_erase hj)
            rw [PEState.run_cons, hstep]
            obtain ⟨hdd, hns⟩ := ih hprest _ hd'
            refine ⟨hdd, ?_⟩
            intro i
            simp only [List.cons_append, List.nil_append, List.mem_cons]
            push_neg
            exact ⟨by simp, hns i⟩
          · have hstep : s.step (PEAction.settleOp id) = (s, []) := by
              simp [PEState.step, PEState.settleOp, hid]
            rw [PEState.run_cons, hstep]
            obtain ⟨hdd, hns⟩ := ih hprest s ⟨hdr, hdc⟩
            exact ⟨hdd, by simpa using hns⟩

/-! ## LoadNetworkEngine -/

/-- A `download`/`upload` channel configuration object. Each property
may be absent (`none`). JS truthiness: an empty string is falsy, and the
number `0` is falsy — that and only that is what `if (!apiUrl)` /
`if (!chunkSize)` test. -/
structure ChannelConfig where
  apiUrl : Option String
  chunkSize : Option Int
deriving DecidableEq, Repr

/-- JS truthiness of an optional string property. -/
def truthyStr : Option String → Bool
  | none => false
  | some s => decide (s ≠ "")

/-- JS truthiness of an optional numeric property. -/
def truthyInt : Option Int → Bool
  | none => false
  | some n => decide (n ≠ 0)

/-- The per-channel checks of the `LoadNetworkEngine` constructor:
`if (!apiUrl) throw ...; if (!chunkSize) throw ...`. -/
def validateChannel (chan : String) (cfg : ChannelConfig) : Except String Unit :=
  if truthyStr cfg.apiUrl = false then
    .error ("Missing " ++ chan ++ " apiUrl argument")
  else if truthyInt cfg.chunkSize = false then
    .error ("Missing " ++ chan ++ " chunkSize argument")
  else .ok ()

def validateOpt (chan : String) : Option ChannelConfig → Except String Unit
  | none => .ok ()
  | some cfg => validateChannel chan cfg

/-- `new LoadNetworkEngine({download, upload, localAddress})`: throws
when neither channel is configured, validates each supplied channel
(download first), then pushes one freshly constructed `PromiseEngine`
per configured channel — each of which starts playing immediately. -/
def LoadNetworkEngine.construct (download upload : Option ChannelConfig) :
    Except String (List (PEState × List PEEvent)) :=
  if download = none ∧ upload = none then
    .error "Missing at least one of download/upload config"
  else do
    validateOpt "download" download
    validateOpt "upload" upload
    pure ((match download with
           | some _ => [PromiseEngine.construct]
           | none => []) ++
          (match upload with
           | some _ => [PromiseEngine.construct]
           | none => []))

theorem validateChannel_error (chan : String) (cfg : ChannelConfig) :
    (∃ e, validateChannel chan cfg = .error e) ↔
      (cfg.apiUrl = none ∨ cfg.apiUrl = some "" ∨
       cfg.chunkSize = none ∨ cfg.chunkSize = some 0) := by
  rcases cfg with ⟨url?, size?⟩
  cases url? with
  | none => simp [validateChannel, truthyStr]
  | some s =>
      by_cases hs : s = ""
      · subst hs; simp [validateChannel, truthyStr]
      · cases size? with
        | none => simp [validateChannel, truthyStr, truthyInt, hs]
        | some n =>
            by_cases hn : n = 0
            · subst hn; simp [validateChannel, truthyStr, truthyInt, hs]
            · simp [validateChannel, truthyStr, truthyInt, hs, hn]

theorem validateChannel_ok (chan : String) (cfg : ChannelConfig)
    (h : ¬(cfg.apiUrl = none ∨ cfg.apiUrl = some "" ∨
           cfg.chunkSize = none ∨ cfg.chunkSize = some 0)) :
    validateChannel chan cfg = .ok () := by
  rcases hv : validateChannel chan cfg with e | u
  · exact absurd ((validateChannel_error chan cfg).mp ⟨e, hv⟩) h
  · rfl

/-- A supplied channel config that the constructor rejects: a falsy
(`undefined`/empty) `apiUrl` or a falsy (`undefined`/`0`) `chunkSize`. -/
def MissingCfg (c : ChannelConfig) : Prop :=
  c.apiUrl = none ∨ c.apiUrl = some "" ∨ c.chunkSize = none ∨ c.chunkSize = some 0

theorem construct_ok_shape (d u : Option ChannelConfig)
    (engines : List (PEState × List PEEvent))
    (h : LoadNetworkEngine.construct d u = .ok engines) :
    engines ≠ [] ∧ ∀ eng ∈ engines, eng = PromiseEngine.construct := by
  cases d with
  | none =>
      cases u with
      | none => simp [LoadNetworkEngine.construct] at h
      | some cu =>
          rcases hv : validateChannel "upload" cu with e | u0
          · simp [LoadNetworkEngine.construct, validateOpt, Bind.bind, Except.bind, pure, Except.pure, hv] at h
          · simp [LoadNetworkEngine.construct, validateOpt, Bind.bind, Except.bind, pure, Except.pure, hv] at h
            subst h
            exact ⟨by simp, by simp⟩
  | some cd =>
      rcases hvd : validateChannel "download" cd with e | d0
      · cases u with
        | none => simp [LoadNetworkEngine.construct, validateOpt, Bind.bind, Except.bind, pure, Except.pure, hvd] at h
        | some cu => simp [LoadNetworkEngine.construct, validateOpt, Bind.bind, Except.bind, pure, Except.pure, hvd] at h
      · cases u with
        | none =>
            simp [LoadNetworkEngine.construct, validateOpt, Bind.bind, Except.bind, pure, Except.pure, hvd] at h
            subst h
            exact ⟨by simp, by simp⟩
        | some cu =>
            rcases hvu : validateChannel "upload" cu with e | u0
            · simp [LoadNetworkEngine.construct, validateOpt, Bind.bind, Except.bind, pure, Except.pure, hvd, hvu] at h
            · simp [LoadNetworkEngine.construct, validateOpt, Bind.bind, Except.bind, pure, Except.pure, hvd, hvu] at h
              subst h
              refine ⟨by simp, ?_⟩
              intro eng heng
              simp only [List.mem_cons, List.mem_singleton, List.not_mem_nil,
                or_false] at heng
              rcases heng with rfl | rfl <;> rfl

/-- C1 counterexample: the claim quantifies over every sequence of
`play()`/`pause()`/`stop()` calls, but after `pause()` is called while
operation 0 is in flight, a `play()` immediately starts operation 1 —
the trace is `[start 0, start 1]` with no settlement in between, so two
operations overlap. -/
theorem c1_counterexample :
    overlapFree (PromiseEngine.construct.2
        ++ (PromiseEngine.construct.1.run [PEAction.pause, PEAction.play]).2) 0
      = false := by rfl

/-- C1 (amended): for a freely-running loop — a `PromiseEngine` driven
by any sequence of `play()` calls and settlements with no intervening
`pause()`/`stop()` — iteration N+1 never starts before iteration N
settles: the full emitted trace is overlap-free. -/
theorem c1_theorem (acts : List PEAction) (hp : PEAction.pause ∉ acts) :
    overlapFree (PromiseEngine.construct.2
        ++ (PromiseEngine.construct.1.run acts).2) 0 = true := by
  have hr : PromiseEngine.construct.1.running = true := by rw [construct_eq]
  have hc : PromiseEngine.construct.1.canceled = [] := by rw [construct_eq]
  have hl : PromiseEngine.construct.1.pending.length = 1 := by
    rw [construct_eq]
    rfl
  obtain ⟨h1, -, -, -, -⟩ :=
    run_overlapFree acts hp PromiseEngine.construct.1 hr hc (by omega)
  rw [hl] at h1
  have h2 : PromiseEngine.construct.2 = [PEEvent.start 0] := by rw [construct_eq]
  rw [h2, overlapFree_append]
  simpa [overlapFree, flightAfter] using h1

/-- C1 witness: a concrete freely-running run — the first two
operations settle in turn — whose trace is overlap-free. -/
theorem c1_witness :
    overlapFree (PromiseEngine.construct.2
        ++ (PromiseEngine.construct.1.run
              [PEAction.settleOp 0, PEAction.settleOp 1]).2) 0 = true :=
  c1_theorem [PEAction.settleOp 0, PEAction.settleOp 1] (by decide)

/-- C8: after `stop()` (a synonym of `pause()`) is called on a loop in
any reachable state, and as long as `play()` is not called again, no
`start` event is ever emitted: in particular the settlement of the
handle that was in flight at cancel time never triggers the next
iteration. -/
theorem c8_theorem (pre post : List PEAction) (hpost : PEAction.play ∉ post)
    (i : Nat) :
    PEEvent.start i ∉
      (((PromiseEngine.construct.1.run pre).1.stop).run post).2 := by
  have hinv : Inv (PromiseEngine.construct.1.run pre).1 :=
    Inv_run _ pre Inv_construct
  have hdead : Dead ((PromiseEngine.construct.1.run pre).1.stop) :=
    Dead_pause _ hinv
  exact (Dead_run post hpost _ hdead).2 i

/-- C8 witness: stop right after construction, then let the in-flight
operation 0 settle — no start is emitted. -/
theorem c8_witness :
    PEEvent.start 0 ∉
      (((PromiseEngine.construct.1.run []).1.stop).run [PEAction.settleOp 0]).2 :=
  c8_theorem [] [PEAction.settleOp 0] (by decide) 0

/-- C10: constructing a `PromiseEngine` immediately enters the running
state and emits the first `start` (no `play()` needed); `play()` right
after construction — and more generally after any `pause`-free run —
is a no-op; and constructing a `LoadNetworkEngine` from any accepted
configuration yields a non-empty set of engines, each already running
with its first operation started. -/
theorem c10_theorem :
    PromiseEngine.construct.1.running = true
    ∧ PromiseEngine.construct.2 = [PEEvent.start 0]
    ∧ PromiseEngine.construct.1.play = (PromiseEngine.construct.1, [])
    ∧ (∀ d u engines, LoadNetworkEngine.construct d u = .ok engines →
        engines ≠ [] ∧ ∀ eng ∈ engines,
          eng.1.running = true ∧ eng.2 = [PEEvent.start 0])
    ∧ (∀ acts : List PEAction, PEAction.pause ∉ acts →
        (PromiseEngine.construct.1.run acts).1.play
          = ((PromiseEngine.construct.1.run acts).1, [])) := by
  refine ⟨rfl, rfl, rfl, ?_, ?_⟩
  · intro d u engines hok
    obtain ⟨hne, hall⟩ := construct_ok_shape d u engines hok
    refine ⟨hne, ?_⟩
    intro eng heng
    rw [hall eng heng, construct_eq]
    exact ⟨rfl, rfl⟩
  · intro acts hp
    have hr : PromiseEngine.construct.1.running = true := by rw [construct_eq]
    have hc : PromiseEngine.construct.1.canceled = [] := by rw [construct_eq]
    have hl : PromiseEngine.construct.1.pending.length = 1 := by
      rw [construct_eq]
      rfl
    obtain ⟨-, -, h3, -, -⟩ :=
      run_overlapFree acts hp PromiseEngine.construct.1 hr hc (by omega)
    simp [PEState.play, h3]

/-- C10 witness: `play()` is a no-op after construction plus one
settlement, and a valid download-only configuration yields exactly one
engine, running with its first operation started. -/
theorem c10_witness :
    ((PromiseEngine.construct.1.run [PEAction.settleOp 0]).1.play
        = ((PromiseEngine.construct.1.run [PEAction.settleOp 0]).1, []))
    ∧ ([PromiseEngine.construct] ≠ []
       ∧ ∀ eng ∈ [PromiseEngine.construct],
           eng.1.running = true ∧ eng.2 = [PEEvent.start 0]) :=
  ⟨c10_theorem.2.2.2.2 [PEAction.settleOp 0] (by decide),
   c10_theorem.2.2.2.1 (some ⟨some "https://x/test", some 1000⟩) none
     [PromiseEngine.construct] (by rfl)⟩

/-- C4 counterexample: a download config with a negative `chunkSize`
(`-1`) is NOT rejected — `if (!chunkSize)` only catches falsy values
(`undefined`, `0`) — so construction succeeds where the claim demands a
configuration error. -/
theorem c4_counterexample :
    LoadNetworkEngine.construct (some ⟨some "https://x/test", some (-1)⟩) none
      = .ok [PromiseEngine.construct] := by rfl

/-- C4 (amended): `LoadNetworkEngine` construction fails if and only if
neither `download` nor `upload` is supplied, or a supplied config has a
missing or empty `apiUrl`, or a missing or zero `chunkSize` (the JS
falsy values); a strictly negative `chunkSize` is truthy and is
accepted. -/
theorem c4_theorem (d u : Option ChannelConfig) :
    (∃ e, LoadNetworkEngine.construct d u = .error e) ↔
      ((d = none ∧ u = none)
       ∨ (∃ c, d = some c ∧ MissingCfg c)
       ∨ (∃ c, u = some c ∧ MissingCfg c)) := by
  cases d with
  | none =>
      cases u with
      | none => simp [LoadNetworkEngine.construct, MissingCfg]
      | some cu =>
          by_cases hm : MissingCfg cu
          · obtain ⟨e, he⟩ := (validateChannel_error "upload" cu).mpr hm
            simp [LoadNetworkEngine.construct, validateOpt, Bind.bind,
              Except.bind, he, hm]
          · have hok := validateChannel_ok "upload" cu hm
            simp [LoadNetworkEngine.construct, validateOpt, Bind.bind,
              Except.bind, pure, Except.pure, hok, hm]
  | some cd =>
      by_cases hmd : MissingCfg cd
      · obtain ⟨e, he⟩ := (validateChannel_error "download" cd).mpr hmd
        cases u with
        | none =>
            simp [LoadNetworkEngine.construct, validateOpt, Bind.bind,
              Except.bind, he, hmd]
        | some cu =>
            simp [LoadNetworkEngine.construct, validateOpt, Bind.bind,
              Except.bind, he, hmd]
      · have hokd := validateChannel_ok "download" cd hmd
        cases u with
        | none =>
            simp [LoadNetworkEngine.construct, validateOpt, Bind.bind,
              Except.bind, pure, Except.pure, hokd, hmd]
        | some cu =>
            by_cases hmu : MissingCfg cu
            · obtain ⟨e, he⟩ := (validateChannel_error "upload" cu).mpr hmu
              simp [LoadNetworkEngine.construct, validateOpt, Bind.bind,
                Except.bind, hokd, he, hmd, hmu]
            · have hoku := validateChannel_ok "upload" cu hmu
              simp [LoadNetworkEngine.construct, validateOpt, Bind.bind,
                Except.bind, pure, Except.pure, hokd, hoku, hmd, hmu]

/-! ## ReachabilityEngine -/

/-- A settlement source racing inside one `ReachabilityEngine`: the
request promise resolves, the request promise rejects, or the armed
timeout timer fires. The environment may produce `timerFire` only when
the timer was armed (`timeout > 0`). -/
inductive RSettle where
  | fetchOk (response : Nat)
  | fetchErr (error : String)
  | timerFire
deriving DecidableEq, Repr

/-- The object passed to `onFinished`. -/
structure RResult where
  targetUrl : String
  reachable : Bool
  response : Option Nat
  error : Option String
deriving DecidableEq, Repr

/-- The constructor-local latch `finished` plus the list of `onFinished`
invocations observed so far. -/
structure RState where
  finished : Bool
  delivered : List RResult
deriving DecidableEq, Repr

/-- The result each settlement source hands to `finish`. -/
def settleResult (targetUrl : String) : RSettle → RResult
  | .fetchOk r => ⟨targetUrl, true, some r, none⟩
  | .fetchErr e => ⟨targetUrl, false, none, some e⟩
  | .timerFire => ⟨targetUrl, false, none, some "Request timeout"⟩

/-- The `finish` closure: if the latch is set, return; otherwise set it
and invoke `this.onFinished` with the result. -/
def finish (targetUrl : String) (s : RState) (ev : RSettle) : RState :=
  if s.finished then s
  else { finished := true, delivered := s.delivered ++ [settleResult targetUrl ev] }

/-- One `ReachabilityEngine` run: the settlements arrive in some order
and each calls `finish`. -/
def ReachabilityEngine.run (targetUrl : String) (evs : List RSettle) : RState :=
  evs.foldl (finish targetUrl) { finished := false, delivered := [] }

/-- `timeout > 0 && setTimeout(...)`: the deadline timer is armed
exactly when the configured timeout is strictly positive. -/
def timerArmed (timeout : Int) : Bool := decide (0 < timeout)

/-- The constructor's default for the `timeout` option. -/
def defaultTimeout : Int := -1

theorem foldl_finish_finished (targetUrl : String) (evs : List RSettle)
    (s : RState) (h : s.finished = true) :
    evs.foldl (finish targetUrl) s = s := by
  induction evs with
  | nil => rfl
  | cons e rest ih => simp [List.foldl_cons, finish, h, ih]

/-- C2: whatever non-empty set of settlements occurs — request success,
request failure, the armed timer, in any order, including both request
and timer settling — `onFinished` is invoked exactly once: the
finished-latch discards every settlement after the first. -/
theorem c2_theorem (targetUrl : String) (evs : List RSettle) (hne : evs ≠ []) :
    (ReachabilityEngine.run targetUrl evs).delivered.length = 1 := by
  cases evs with
  | nil => exact absurd rfl hne
  | cons e rest =>
      unfold ReachabilityEngine.run
      rw [List.foldl_cons]
      have h1 : finish targetUrl { finished := false, delivered := [] } e
          = { finished := true, delivered := [settleResult targetUrl e] } := by
        simp [finish]
      rw [h1, foldl_finish_finished targetUrl rest _ rfl]
      rfl

/-- C2 witness: the request resolves and the armed timer also fires —
the callback still runs exactly once. -/
theorem c2_witness :
    (ReachabilityEngine.run "https://x/test"
        [RSettle.fetchOk 200, RSettle.timerFire]).delivered.length = 1 :=
  c2_theorem "https://x/test" [RSettle.fetchOk 200, RSettle.timerFire] (by decide)

/-- C5: the single delivered verdict is decided by whichever settlement
comes first — `{reachable: true, response}` on request success,
`{reachable: false, error}` on request failure, and
`{reachable: false, error: 'Request timeout'}` on deadline-first — and
the deadline timer is armed iff the configured timeout is strictly
positive; the default (`-1`, used when the option is absent) leaves it
disarmed. -/
theorem c5_theorem (url : String) (rest : List RSettle) :
    (∀ r, (ReachabilityEngine.run url (.fetchOk r :: rest)).delivered
        = [⟨url, true, some r, none⟩])
    ∧ (∀ e, (ReachabilityEngine.run url (.fetchErr e :: rest)).delivered
        = [⟨url, false, none, some e⟩])
    ∧ ((ReachabilityEngine.run url (.timerFire :: rest)).delivered
        = [⟨url, false, none, some "Request timeout"⟩])
    ∧ (∀ t : Int, timerArmed t = true ↔ 0 < t)
    ∧ timerArmed defaultTimeout = false := by
  have key : ∀ ev : RSettle,
      (ReachabilityEngine.run url (ev :: rest)).delivered
        = [settleResult url ev] := by
    intro ev
    unfold ReachabilityEngine.run
    rw [List.foldl_cons]
    have h1 : finish url { finished := false, delivered := [] } ev
        = { finished := true, delivered := [settleResult url ev] } := by
      simp [finish]
    rw [h1, foldl_finish_finished url rest _ rfl]
  refine ⟨fun r => key (.fetchOk r), fun e => key (.fetchErr e), key .timerFire,
    ?_, rfl⟩
  intro t
  simp [timerArmed]

/-! ## nodeFetch (src/utils/nodeRequest.js)

`performance.now()` is modelled by an abstract clock `clock : Nat → Nat`:
`clock i` is the reading returned by the i-th call the function makes,
in program order. The calls, in source order, are: 0 the unused `start`,
1 `timings.startTime`, 2 `timings.dnsStart`, 3 `timings.dnsEnd`,
4 `timings.tcpConnectStart`, 5 the `start` inside `measureTCPConnect`,
6 the reading on the socket's `connect` event, 7 the reading at the
response callback (`tlsHandshakeEnd`, taken only when the socket is
encrypted), then one reading at the first `data` event
(`firstByteTime`, only when at least one chunk arrives) and one at the
`end` event (`endTime`). -/

/-- A value a `nodeFetch` promise can reject with. The code has no
error classes of its own: it forwards the raw `dns.lookup` error, the
raw socket error, or the request's `error` event — or, in the outer
`catch` block, whatever evaluating that block produces. -/
inductive JsError where
  | referenceError (msg : String)
  | lookupError (msg : String)
  | socketError (msg : String)
  | requestError (msg : String)
deriving DecidableEq, Repr

/-- The behaviour of the trusted transport for one exchange: whether
the DNS lookup succeeds, whether the TCP connect succeeds, whether the
response socket is TLS (`res.socket.encrypted`), the sizes of the body
chunks delivered by `data` events, and an optional `error` event on the
request. -/
structure FetchEnv where
  dnsResult : Except String Unit
  tcpResult : Except String Unit
  encrypted : Bool
  chunks : List Nat
  reqError : Option String
deriving Repr

/-- The `timings` object `nodeFetch` fills in. Fields the code assigns
only conditionally are `Option`; `none` is JavaScript `undefined`. -/
structure Timings where
  startTime : Nat
  dnsStart : Option Nat
  dnsEnd : Option Nat
  tcpConnectStart : Option Nat
  tcpConnectEnd : Option Nat
  tlsHandshakeStart : Option Nat
  tlsHandshakeEnd : Option Nat
  firstByteTime : Option Nat
  endTime : Option Nat
  uploadLatency : Option Nat
  downloadLatency : Option Nat
  transferSize : Option Nat
deriving DecidableEq, Repr

/-- What `resolve(response)` carries, as far as the claims need:
`timings` as attached to the `NodeResponse`, the method actually sent
(`options.method || 'GET'`), and the accumulated body size. -/
structure FetchSuccess where
  timings : Timings
  sentMethod : String
  bodySize : Nat
deriving DecidableEq, Repr

/-- `options.method || 'GET'`: the request is sent with `GET` when the
method option is absent (or empty, both falsy). -/
def effectiveMethod : Option String → String
  | none => "GET"
  | some m => if m = "" then "GET" else m

/-- The `catch` block at the bottom of `nodeFetch`:
`catch (error) { console.error('Request failed:', error); reject(error); }`.
No binding named `reject` is in scope at that point — the only `reject`
in the file near it is the executor parameter of the inner
`new Promise((resolve, reject) => ...)`, whose scope ends before the
`catch` — so evaluating the name `reject` throws a `ReferenceError`,
which the `async` function surfaces as the rejection the caller sees,
in place of the caught transport `error`. -/
def nodeFetchCatch (_error : JsError) : JsError :=
  .referenceError "reject is not defined"

/-- `nodeFetch(urlStr, options)`, for a given transport behaviour and
clock. The awaited DNS lookup and TCP connect throw into the outer
`try`/`catch`; a request `error` event rejects the inner promise with
the raw error; otherwise the response callback, `data` and `end`
handlers fill in `timings` and resolve. -/
def nodeFetch (env : FetchEnv) (clock : Nat → Nat) (method : Option String) :
    Except JsError FetchSuccess :=
  let startTime := clock 1
  let dnsStart := clock 2
  match env.dnsResult with
  | .error e => .error (nodeFetchCatch (.lookupError e))
  | .ok _ =>
    let dnsEnd := clock 3
    let tcpConnectStart := clock 4
    match env.tcpResult with
    | .error e => .error (nodeFetchCatch (.socketError e))
    | .ok _ =>
      let tcpTime := clock 6 - clock 5
      let tcpConnectEnd := tcpConnectStart + tcpTime
      let tlsHandshakeStart := tcpConnectEnd
      match env.reqError with
      | some e => .error (.requestError e)
      | none =>
        let tlsHandshakeEnd := if env.encrypted then some (clock 7) else none
        let uploadLatency :=
          if env.encrypted ∧ method = some "POST" then some (clock 7 - startTime)
          else none
        let k := if env.encrypted then 8 else 7
        let firstByteTime := if env.chunks.isEmpty then none else some (clock k)
        let downloadLatency :=
          if ¬env.chunks.isEmpty ∧ method = some "GET" then
            some (clock k - startTime)
          else none
        let endTime := if env.chunks.isEmpty then clock k else clock (k + 1)
        let bodySize := env.chunks.sum
        .ok { timings :=
                { startTime := startTime
                  dnsStart := some dnsStart
                  dnsEnd := some dnsEnd
                  tcpConnectStart := some tcpConnectStart
                  tcpConnectEnd := some tcpConnectEnd
                  tlsHandshakeStart := some tlsHandshakeStart
                  tlsHandshakeEnd := tlsHandshakeEnd
                  firstByteTime := firstByteTime
                  endTime := some endTime
                  uploadLatency := uploadLatency
                  downloadLatency := downloadLatency
                  transferSize := some bodySize }
              sentMethod := effectiveMethod method
              bodySize := bodySize }

/-- The response headers `NodePerformanceResourceTiming` inspects.
`contentLength` is the parsed numeric `content-length` header when that
header is present (any present header string, `"0"` included, is
truthy). `serverTimingSentBytes`: outer `Option` is presence of the
`server-timing` header, inner `Option` is whether its text matches
`sent_bytes=(\d+)` and with which value. -/
structure RespHeaders where
  contentLength : Option Nat
  transferEncodingChunked : Bool
  serverTimingSentBytes : Option (Option Nat)
deriving DecidableEq, Repr

/-- The `transferSize` computation in the
`NodePerformanceResourceTiming` constructor: declared content length if
the header is present; else body size plus a fixed 200-byte header
estimate whenever the transfer encoding is chunked; else the body size;
and if the result is `0` and a `server-timing` header with a
`sent_bytes=` field is present, that value instead. -/
def computeTransferSize (headers : RespHeaders) (bodySize : Nat) : Nat :=
  let ts :=
    match headers.contentLength with
    | some n => n
    | none =>
        if headers.transferEncodingChunked then bodySize + 200 else bodySize
  if ts = 0 then
    match headers.serverTimingSentBytes with
    | some (some n) => n
    | some none => ts
    | none => ts
  else ts

/-- The fields of `NodePerformanceResourceTiming` the claims are about.
`requestStart` is set to `timings.startTime`; `responseStart` to
`timings.firstByteTime`; `latency = responseStart - requestStart` is
`undefined - n` (NaN, modelled `none`) when no body byte ever arrived. -/
structure PerfEntry where
  startTime : Nat
  requestStart : Nat
  responseStart : Option Nat
  responseEnd : Option Nat
  latency : Option Nat
  transferSize : Nat
  encodedBodySize : Nat
  decodedBodySize : Nat
deriving DecidableEq, Repr

/-- `new NodePerformanceResourceTiming(timings, url, response, bodySize)`. -/
def NodePerformanceResourceTiming.construct (t : Timings)
    (headers : RespHeaders) (bodySize : Nat) : PerfEntry :=
  { startTime := t.startTime
    requestStart := t.startTime
    responseStart := t.firstByteTime
    responseEnd := t.endTime
    latency := t.firstByteTime.map (fun fb => fb - t.startTime)
    transferSize := computeTransferSize headers bodySize
    encodedBodySize := bodySize
    decodedBodySize := bodySize }

/-- A transport where the hostname lookup fails. -/
def envDnsFail : FetchEnv :=
  { dnsResult := .error "ENOTFOUND no-such-host.invalid", tcpResult := .ok (),
    encrypted := true, chunks := [], reqError := none }

/-- A transport where the TCP connection is refused. -/
def envTcpFail : FetchEnv :=
  { dnsResult := .ok (), tcpResult := .error "ECONNREFUSED 127.0.0.1:443",
    encrypted := true, chunks := [], reqError := none }

/-- C3: when hostname resolution fails (and likewise when the TCP
connection is refused), the caller does NOT receive the lookup/connect
failure: the outer `catch` block evaluates the out-of-scope name
`reject`, so the promise rejects with
`ReferenceError: reject is not defined` instead of the typed transport
failure the claim (and the code's own intent) describes. -/
theorem c3_bug_theorem :
    (nodeFetch envDnsFail (fun i => i) none
       = .error (.referenceError "reject is not defined"))
    ∧ (∀ msg, nodeFetch envDnsFail (fun i => i) none
       ≠ .error (.lookupError msg))
    ∧ (nodeFetch envTcpFail (fun i => i) none
       = .error (.referenceError "reject is not defined"))
    ∧ (∀ msg, nodeFetch envTcpFail (fun i => i) none
       ≠ .error (.socketError msg)) := by
  refine ⟨rfl, ?_, rfl, ?_⟩
  · intro msg h
    rw [show nodeFetch envDnsFail (fun i => i) none
        = .error (.referenceError "reject is not defined") from rfl] at h
    simp at h
  · intro msg h
    rw [show nodeFetch envTcpFail (fun i => i) none
        = .error (.referenceError "reject is not defined") from rfl] at h
    simp at h

/-- The phase-timestamp chain of a completed `timings` record: every
timestamp defined and non-decreasing in phase order. -/
def TimingsChain (t : Timings) : Prop :=
  ∃ a b c d e f g h,
    t.dnsStart = some a ∧ t.dnsEnd = some b ∧ t.tcpConnectStart = some c
    ∧ t.tcpConnectEnd = some d ∧ t.tlsHandshakeStart = some e
    ∧ t.tlsHandshakeEnd = some f ∧ t.firstByteTime = some g
    ∧ t.endTime = some h
    ∧ t.startTime ≤ a ∧ a ≤ b ∧ b ≤ c ∧ c ≤ d ∧ d ≤ e ∧ e ≤ f ∧ f ≤ g ∧ g ≤ h

/-- C7 counterexample: a successful exchange whose response body is
empty never fires a `data` event, so `timings.firstByteTime` is left
`undefined` (`none`) — the claim's "all phase timestamps are defined…
including exchanges whose response body is empty" fails. -/
theorem c7_counterexample :
    nodeFetch { dnsResult := .ok (), tcpResult := .ok (), encrypted := true,
                chunks := [], reqError := none } (fun i => i) none
      = .ok { timings := { startTime := 1, dnsStart := some 2, dnsEnd := some 3,
                           tcpConnectStart := some 4, tcpConnectEnd := some 5,
                           tlsHandshakeStart := some 5, tlsHandshakeEnd := some 7,
                           firstByteTime := none, endTime := some 8,
                           uploadLatency := none, downloadLatency := none,
                           transferSize := some 0 },
              sentMethod := "GET", bodySize := 0 } := by rfl

/-- C7 (amended): for every successful exchange over a TLS socket whose
body delivers at least one byte, under a monotone `performance.now()`
clock, all phase timestamps are defined and monotonically
non-decreasing in the order startTime ≤ dnsStart ≤ dnsEnd ≤
tcpConnectStart ≤ tcpConnectEnd ≤ tlsHandshakeStart ≤ tlsHandshakeEnd ≤
firstByteTime ≤ endTime. (An empty body leaves firstByteTime undefined;
see the counterexample.) -/
theorem c7_theorem (env : FetchEnv) (clock : Nat → Nat)
    (hmono : ∀ i j, i ≤ j → clock i ≤ clock j) (method : Option String)
    (hdns : env.dnsResult = .ok ()) (htcp : env.tcpResult = .ok ())
    (herr : env.reqError = none) (henc : env.encrypted = true)
    (hch : env.chunks ≠ []) :
    ∀ fs, nodeFetch env clock method = .ok fs → TimingsChain fs.timings := by
  intro fs hfs
  rcases env with ⟨dr, tr, enc, chunks, re⟩
  dsimp only at hdns htcp herr henc hch
  subst hdns htcp herr henc
  have hemp : chunks.isEmpty = false := by
    cases chunks
    · exact absurd rfl hch
    · rfl
  simp only [nodeFetch, hemp, Bool.false_eq_true, if_neg, if_pos,
    not_false_eq_true, ite_true, ite_false] at hfs
  rw [Except.ok.injEq] at hfs
  subst hfs
  refine ⟨clock 2, clock 3, clock 4, clock 4 + (clock 6 - clock 5),
    clock 4 + (clock 6 - clock 5), clock 7, clock 8, clock 9,
    rfl, rfl, rfl, rfl, rfl, rfl, rfl, rfl, ?_, ?_, ?_, ?_, ?_, ?_, ?_, ?_⟩
  · exact hmono 1 2 (by omega)
  · exact hmono 2 3 (by omega)
  · exact hmono 3 4 (by omega)
  · omega
  · omega
  · have h45 := hmono 4 5 (by omega)
    have h56 := hmono 5 6 (by omega)
    have h67 := hmono 6 7 (by omega)
    omega
  · exact hmono 7 8 (by omega)
  · exact hmono 8 9 (by omega)

/-- C7 witness: a concrete one-chunk exchange under the identity clock
satisfies the full timestamp chain. -/
theorem c7_witness :
    TimingsChain
      (Timings.mk 1 (some 2) (some 3) (some 4) (some 5) (some 5) (some 7)
        (some 8) (some 9) none none (some 1)) :=
  c7_theorem { dnsResult := .ok (), tcpResult := .ok (), encrypted := true,
               chunks := [1], reqError := none } (fun i => i)
    (fun i j h => h) none rfl rfl rfl rfl (by decide)
    ⟨Timings.mk 1 (some 2) (some 3) (some 4) (some 5) (some 5) (some 7)
        (some 8) (some 9) none none (some 1), "GET", 1⟩ rfl

/-- C6 counterexample: a chunked response that accumulated 100 body
bytes (no content-length header) is reported as 300 bytes: the fixed
200-byte padding is added to every chunked transfer, not only when the
accumulated bytes are zero as the claim states. -/
theorem c6_counterexample :
    computeTransferSize
        { contentLength := none, transferEncodingChunked := true,
          serverTimingSentBytes := none } 100 = 100 + 200
    ∧ computeTransferSize
        { contentLength := none, transferEncodingChunked := true,
          serverTimingSentBytes := none } 100 ≠ 100 := by decide

/-- C6 (amended): transferSize equals the declared content length when
that header is present (and parses to a nonzero value); with no content
length, a chunked transfer reports the accumulated bytes PLUS the fixed
200-byte padding regardless of whether the accumulated count is zero;
a non-chunked transfer reports exactly the accumulated bytes; and a
zero result is replaced by the `sent_bytes` value of a `server-timing`
header when one is present. -/
theorem c6_theorem (h : RespHeaders) (b : Nat) :
    (∀ n, h.contentLength = some n → n ≠ 0 → computeTransferSize h b = n)
    ∧ (h.contentLength = none → h.transferEncodingChunked = true →
        computeTransferSize h b = b + 200)
    ∧ (h.contentLength = none → h.transferEncodingChunked = false → b ≠ 0 →
        computeTransferSize h b = b)
    ∧ (∀ m, h.serverTimingSentBytes = some (some m) →
        ((h.contentLength = some 0 → computeTransferSize h b = m)
         ∧ (h.contentLength = none → h.transferEncodingChunked = false →
            b = 0 → computeTransferSize h b = m))) := by
  refine ⟨?_, ?_, ?_, ?_⟩
  · intro n hn hnz
    simp [computeTransferSize, hn, hnz]
  · intro hcl hch
    simp [computeTransferSize, hcl, hch]
  · intro hcl hch hbz
    simp [computeTransferSize, hcl, hch, hbz]
  · intro m hm
    constructor
    · intro hcl
      simp [computeTransferSize, hcl, hm]
    · intro hcl hch hbz
      simp [computeTransferSize, hcl, hch, hbz, hm]

/-- C6 witness: concrete evaluations through the amended theorem — a
plain transfer of 5 bytes reports 5; a declared content length of 1234
wins over a body of 7 bytes. -/
theorem c6_witness :
    computeTransferSize
        { contentLength := none, transferEncodingChunked := false,
          serverTimingSentBytes := none } 5 = 5
    ∧ computeTransferSize
        { contentLength := some 1234, transferEncodingChunked := false,
          serverTimingSentBytes := none } 7 = 1234 :=
  ⟨(c6_theorem (RespHeaders.mk none false none) 5).2.2.1 rfl rfl (by decide),
   (c6_theorem (RespHeaders.mk (some 1234) false none) 7).1 1234 rfl (by decide)⟩

/-- C9 counterexample: a request issued with no `method` option is sent
as a GET (`options.method || 'GET'`), yet `downloadLatency` is NOT
recorded, because the data handler tests `options.method === 'GET'` on
the raw option: the success value has `sentMethod = "GET"` but
`downloadLatency = none` (undefined). -/
theorem c9_counterexample :
    nodeFetch { dnsResult := .ok (), tcpResult := .ok (), encrypted := true,
                chunks := [5], reqError := none } (fun i => i) none
      = .ok { timings := { startTime := 1, dnsStart := some 2, dnsEnd := some 3,
                           tcpConnectStart := some 4, tcpConnectEnd := some 5,
                           tlsHandshakeStart := some 5, tlsHandshakeEnd := some 7,
                           firstByteTime := some 8, endTime := some 9,
                           uploadLatency := none, downloadLatency := none,
                           transferSize := some 5 },
              sentMethod := "GET", bodySize := 5 } := by rfl

/-- C9 (amended): for a successful TLS exchange delivering at least one
body byte, `latency = firstByteTime − requestStart` (with
`requestStart = timings.startTime`); `uploadLatency =
tlsHandshakeEnd − requestStart` is recorded exactly for requests whose
`method` option is the string `'POST'`; `downloadLatency =
firstByteTime − requestStart` is recorded exactly for requests whose
`method` option is the string `'GET'` — a request with no `method`
option is sent as a GET but gets no `downloadLatency`. -/
theorem c9_theorem (env : FetchEnv) (clock : Nat → Nat)
    (method : Option String)
    (hdns : env.dnsResult = .ok ()) (htcp : env.tcpResult = .ok ())
    (herr : env.reqError = none) (henc : env.encrypted = true)
    (hch : env.chunks ≠ []) :
    ∀ fs, nodeFetch env clock method = .ok fs → ∀ headers b,
      (∀ fb, fs.timings.firstByteTime = some fb →
        (NodePerformanceResourceTiming.construct fs.timings headers b).latency
          = some (fb -
              (NodePerformanceResourceTiming.construct fs.timings headers b).requestStart))
      ∧ (∀ tls, method = some "POST" → fs.timings.tlsHandshakeEnd = some tls →
          fs.timings.uploadLatency = some (tls - fs.timings.startTime))
      ∧ (∀ fb, method = some "GET" → fs.timings.firstByteTime = some fb →
          fs.timings.downloadLatency = some (fb - fs.timings.startTime))
      ∧ (method = none → fs.sentMethod = "GET"
          ∧ fs.timings.downloadLatency = none) := by
  intro fs hfs headers b
  rcases env with ⟨dr, tr, enc, chunks, re⟩
  dsimp only at hdns htcp herr henc hch
  subst hdns htcp herr henc
  have hemp : chunks.isEmpty = false := by
    cases chunks
    · exact absurd rfl hch
    · rfl
  simp only [nodeFetch, hemp, Bool.false_eq_true, if_neg, if_pos,
    not_false_eq_true, ite_true, ite_false] at hfs
  rw [Except.ok.injEq] at hfs
  subst hfs
  refine ⟨?_, ?_, ?_, ?_⟩
  · intro fb hfb
    simp only [NodePerformanceResourceTiming.construct]
    simp [hemp] at hfb
    subst hfb
    simp [hemp]
  · intro tls hpost htls
    subst hpost
    simp at htls
    subst htls
    simp
  · intro fb hget hfb
    subst hget
    simp [hemp] at hfb
    subst hfb
    simp [hemp]
  · intro hmeth
    subst hmeth
    refine ⟨rfl, ?_⟩
    simp [hemp]

/-- C9 witness: a concrete one-chunk GET exchange under the identity
clock records `downloadLatency = firstByteTime − startTime = 8 − 1`. -/
theorem c9_witness :
    (Timings.mk 1 (some 2) (some 3) (some 4) (some 5) (some 5) (some 7)
        (some 8) (some 9) none (some 7) (some 2)).downloadLatency
      = some (8 - 1) :=
  (c9_theorem (FetchEnv.mk (.ok ()) (.ok ()) true [2] none)
      (fun i => i) (some "GET")
      rfl rfl rfl rfl (by decide)
      ⟨Timings.mk 1 (some 2) (some 3) (some 4) (some 5) (some 5) (some 7)
          (some 8) (some 9) none (some 7) (some 2), "GET", 2⟩ rfl
      (RespHeaders.mk none false none) 0).2.2.1 8 rfl rfl

end Speedtest
